import Mathlib

/-!
# SUPL transport shim (`gnss_supl_support.c`)

Shallow embedding of `open_supl_socket`, `close_supl_socket`, `supl_write`,
`supl_read` and `supl_logger`.

The file-scope variable `supl_fd` is passed in and returned explicitly.  The
platform primitives (`getaddrinfo`, `socket`, `setsockopt`, `connect`, `close`,
`recv`, `send`, `vsnprintk`) are not part of the file: their return values are
inputs of the model, and every call the C code makes is recorded, in program
order, in a trace of `Call` events.  C `int` and `ssize_t` values are `Int`;
no arithmetic is performed on them, so no wrap-around can occur.

Not modelled: the write of the port number into the candidate's `sockaddr`
(lines 56-63) and the `inet_ntop` call (lines 86-89), which influence no
return value and no control flow.
-/

namespace GnssSupl

/-! ## Data model -/

/-- Texts handed to the shell.  The `errno` arguments of the format strings
are not modelled. -/
inductive Diag
  | resolveFailed     -- "GNSS: Failed to resolve hostname %s, errno: %d)"
  | socketFailed      -- "GNSS: Failed to create socket, errno %d"
  | timeoutFailed     -- "GNSS: Failed to set socket timeout, errno %d"
  | connecting        -- "GNSS: Connecting to %s port %d"
  | connectFailed     -- "GNSS: Connecting to server failed, errno %d"
  | couldNotConnect   -- "GNSS: Could not connect to SUPL server"
  | closeFailed       -- "GNSS: Failed to close SUPL socket"
  | encodingError     -- "GNSS: %s: encoding error"
  | tooLong           -- "GNSS: %s: too long message, it will be cut short"
  | message (buffer : List Char)  -- "GNSS: %s" applied to the local buffer
  deriving DecidableEq

/-- One call to a platform primitive or to the shell.  The field `i` of
`socket`, `setsockopt` and `connect` is the position, in the list returned by
`getaddrinfo`, of the candidate the loop is working on when the call is made;
`sa` is the address handed to `connect`. -/
inductive Call
  | getaddrinfo (ret : Int)
  | socket (i : Nat) (ret : Int)
  | setsockopt (i : Nat) (fd ret : Int)
  | connect (i : Nat) (sa : Nat) (fd ret : Int)
  | close (fd : Int)
  | freeaddrinfo
  | recv (fd : Int)
  | send (fd : Int)
  | shell_error (d : Diag)
  | shell_print (d : Diag)
  deriving DecidableEq

/-- One node of the `addrinfo` list together with what the platform answers
when the loop body runs on it: `sa` identifies the address, `sock` is the
value returned by `socket()`, `opt` by `setsockopt()`, `conn` by
`connect()`. -/
structure Candidate where
  sa : Nat
  sock : Int
  opt : Int
  conn : Int
  deriving DecidableEq

/-- Outcome of `getaddrinfo`: its return value and the list stored in `info`
(read only when `gai = 0`). -/
structure Resolution where
  gai : Int
  info : List Candidate
  deriving DecidableEq

/-- Program state at the label `cleanup:`. -/
structure LoopExit where
  supl_fd : Int
  err : Int
  trace : List Call
  deriving DecidableEq

/-- What `open_supl_socket` leaves behind: return value, `supl_fd`, calls. -/
structure OpenResult where
  ret : Int
  supl_fd : Int
  trace : List Call
  deriving DecidableEq

/-! ## `open_supl_socket` -/

/-- The `for` loop of lines 52-107, started on the `i`-th node with the given
values of `supl_fd` and `err`; the result is the state reached at `cleanup:`
(by `goto`, by `break`, or by running off the end of the list). -/
def connectLoop (i : Nat) (supl_fd err : Int) : List Candidate → LoopExit
  | [] => ⟨supl_fd, err, []⟩
  | c :: rest =>
    if c.sock < 0 then
      ⟨c.sock, err, [Call.socket i c.sock, Call.shell_error Diag.socketFailed]⟩
    else if c.opt ≠ 0 then
      ⟨c.sock, c.opt,
        [Call.socket i c.sock, Call.setsockopt i c.sock c.opt,
         Call.shell_error Diag.timeoutFailed]⟩
    else if c.conn ≠ 0 then
      let r := connectLoop (i + 1) (-1) c.conn rest
      ⟨r.supl_fd, r.err,
        [Call.socket i c.sock, Call.setsockopt i c.sock c.opt,
         Call.shell_print Diag.connecting, Call.connect i c.sa c.sock c.conn,
         Call.close c.sock, Call.shell_error Diag.connectFailed] ++ r.trace⟩
    else
      ⟨c.sock, c.conn,
        [Call.socket i c.sock, Call.setsockopt i c.sock c.opt,
         Call.shell_print Diag.connecting, Call.connect i c.sa c.sock c.conn]⟩

/-- Embedding of `open_supl_socket` (lines 29-124); `supl_fd` is the value of
the file-scope variable on entry. -/
def open_supl_socket (o : Resolution) (supl_fd : Int) : OpenResult :=
  if o.gai ≠ 0 then
    ⟨-1, supl_fd, [Call.getaddrinfo o.gai, Call.shell_error Diag.resolveFailed]⟩
  else
    let r := connectLoop 0 supl_fd (-1) o.info
    let tr := Call.getaddrinfo o.gai :: (r.trace ++ [Call.freeaddrinfo])
    if r.err ≠ 0 then
      if r.supl_fd > -1 then
        ⟨-1, -1, tr ++ [Call.shell_error Diag.couldNotConnect, Call.close r.supl_fd]⟩
      else
        ⟨-1, r.supl_fd, tr ++ [Call.shell_error Diag.couldNotConnect]⟩
    else
      ⟨0, r.supl_fd, tr⟩

/-! ## `close_supl_socket`, `supl_write`, `supl_read` -/

/-- State after `close_supl_socket`. -/
structure CloseResult where
  supl_fd : Int
  trace : List Call
  deriving DecidableEq

/-- Embedding of `close_supl_socket` (lines 126-132); `rc` is the value
returned by `close`. -/
def close_supl_socket (supl_fd rc : Int) : CloseResult :=
  if rc < 0 then
    ⟨supl_fd, [Call.close supl_fd, Call.shell_error Diag.closeFailed]⟩
  else
    ⟨supl_fd, [Call.close supl_fd]⟩

/-- Return value and calls of one of the transfer callbacks. -/
structure XferResult where
  ret : Int
  trace : List Call
  deriving DecidableEq

/-- Embedding of `supl_write` (lines 134-139); `rc` is the value returned by
`send`. -/
def supl_write (supl_fd rc : Int) : XferResult :=
  ⟨rc, [Call.send supl_fd]⟩

/-- Embedding of `supl_read` (lines 166-177); `rc` is the value returned by
`recv`, `errno` the value of `errno` read after the call, and `ETIMEDOUT` the
platform's constant, which the file takes from a header. -/
def supl_read (ETIMEDOUT supl_fd rc errno : Int) : XferResult :=
  if rc < 0 ∧ errno = ETIMEDOUT then
    ⟨0, [Call.recv supl_fd]⟩
  else
    ⟨rc, [Call.recv supl_fd]⟩

/-! ## `supl_logger` -/

/-- Size of the local array `buffer` of `supl_logger`. -/
def bufferSize : Nat := 256

/-- Embedding of `supl_logger` (lines 141-164) after the call to `vsnprintk`:
`ret` is the value `vsnprintk` returned and `buffer` the text it left in the
local array (up to the terminating NUL). -/
def supl_logger (ret : Int) (buffer : List Char) : Int × List Call :=
  if ret < 0 then
    (ret, [Call.shell_error Diag.encodingError])
  else if ret.toNat ≥ bufferSize then
    (ret, [Call.shell_error Diag.tooLong, Call.shell_print (Diag.message buffer)])
  else
    (ret, [Call.shell_print (Diag.message buffer)])

/-- What the formatter produces from `fmt` and its arguments: the complete
text, or an encoding error with code `-(n + 1)`. -/
inductive Formatted
  | text (s : List Char)
  | encodingError (n : Nat) (written : List Char)
  deriving DecidableEq

/-- Modelled from the spec: `vsnprintk`, a platform function the file calls but
does not define.  Given a buffer of `size` bytes it stores at most `size - 1`
characters of the text followed by a NUL and returns the length the complete
text requires; on an encoding error it returns a negative value. -/
def vsnprintk (size : Nat) : Formatted → Int × List Char
  | Formatted.text s => (s.length, s.take (size - 1))
  | Formatted.encodingError n p => (Int.negSucc n, p.take (size - 1))

/-- The whole of `supl_logger`: format into the 256-byte buffer, then report. -/
def supl_logger_fmt (f : Formatted) : Int × List Call :=
  supl_logger (vsnprintk bufferSize f).1 (vsnprintk bufferSize f).2

/-! ## Observations on traces -/

/-- Position of the candidate a `socket`, `setsockopt` or `connect` call was
made for. -/
def Call.cand : Call → Option Nat
  | Call.socket i _ => some i
  | Call.setsockopt i _ _ => some i
  | Call.connect i _ _ _ => some i
  | _ => none

/-- Position recorded by a `socket` call. -/
def Call.socketIdx? : Call → Option Nat
  | Call.socket i _ => some i
  | _ => none

/-- Position recorded by a `connect` call. -/
def Call.connectIdx? : Call → Option Nat
  | Call.connect i _ _ _ => some i
  | _ => none

/-- Address handed to a `connect` call. -/
def Call.connectArg? : Call → Option Nat
  | Call.connect _ sa _ _ => some sa
  | _ => none

/-- Descriptor handed to a `close` call. -/
def Call.closedFd? : Call → Option Int
  | Call.close fd => some fd
  | _ => none

/-- Descriptor created by a `socket` call (none when the call failed). -/
def Call.createdFd? : Call → Option Int
  | Call.socket _ ret => if 0 ≤ ret then some ret else none
  | _ => none

/-- Positions of the candidates `socket()` was called for, in call order. -/
def socketIdx (tr : List Call) : List Nat := tr.filterMap Call.socketIdx?

/-- Positions of the candidates `connect()` was called for, in call order. -/
def connectIdx (tr : List Call) : List Nat := tr.filterMap Call.connectIdx?

/-- Addresses handed to `connect()`, in call order. -/
def connectArgs (tr : List Call) : List Nat := tr.filterMap Call.connectArg?

/-- Descriptors handed to `close()`, in call order. -/
def closedFds (tr : List Call) : List Int := tr.filterMap Call.closedFd?

/-- Descriptors created by `socket()`, in call order. -/
def createdFds (tr : List Call) : List Int := tr.filterMap Call.createdFd?

/-- Some `connect` call of the trace returned 0. -/
def connected (tr : List Call) : Prop :=
  ∃ i sa fd, Call.connect i sa fd 0 ∈ tr

/-- Position of the first candidate whose `connect` answers 0 (the length of
the list when there is none). -/
def firstConnecting : List Candidate → Nat
  | [] => 0
  | c :: rest => if c.conn = 0 then 0 else firstConnecting rest + 1

/-- Bookkeeping of live descriptors along a trace.  A `socket` call that
returns a non-negative value makes that descriptor live; `close` on a live
descriptor ends it; `close` on anything else (a negative value, a descriptor
never created, a descriptor already closed) is a fault, reported as `none`.
The result is the list of descriptors still live at the end. -/
def ledger : List Int → List Call → Option (List Int)
  | live, [] => some live
  | live, Call.socket _ ret :: t =>
    if ret < 0 then ledger live t else ledger (ret :: live) t
  | live, Call.close fd :: t =>
    if fd ∈ live then ledger (live.erase fd) t else none
  | live, _ :: t => ledger live t

/-! ## Concrete scenarios -/

/-- Candidate A: socket 3, configured, connect refused. -/
def candA : Candidate := ⟨10, 3, 0, -1⟩

/-- Candidate B: socket 4, configured, connect accepted. -/
def candB : Candidate := ⟨11, 4, 0, 0⟩

/-- Resolution yielding A then B. -/
def resAB : Resolution := ⟨0, [candA, candB]⟩

/-- Resolution yielding the single candidate A. -/
def resA : Resolution := ⟨0, [candA]⟩

/-- Candidate whose socket cannot be created. -/
def candNoSocket : Candidate := ⟨12, -1, 0, 0⟩

/-- Candidate whose socket cannot be configured. -/
def candNoTimeout : Candidate := ⟨13, 5, -1, 0⟩

/-- The statement "a call in which no candidate connected returns failure and
leaves `supl_fd` equal to -1", for one resolution outcome and one value of
`supl_fd` on entry. -/
def failureLeavesHandleUnset (o : Resolution) (supl_fd : Int) : Prop :=
  ¬ connected (open_supl_socket o supl_fd).trace →
    (open_supl_socket o supl_fd).ret = -1 ∧ (open_supl_socket o supl_fd).supl_fd = -1

/-- The statement "after `close_supl_socket` the handle is -1", for one value
of `supl_fd` on entry and one return value of `close`. -/
def closeResetsHandle (supl_fd rc : Int) : Prop :=
  (close_supl_socket supl_fd rc).supl_fd = -1

/-! ## Lemmas on the loop -/

theorem connectLoop_ordered (cs : List Candidate) :
    ∀ (i : Nat) (fd err : Int), (∀ c ∈ cs, 0 ≤ c.sock ∧ c.opt = 0) →
      connectArgs (connectLoop i fd err cs).trace
          = (cs.take (firstConnecting cs + 1)).map Candidate.sa ∧
      connectIdx (connectLoop i fd err cs).trace
          = List.range' i (min (firstConnecting cs + 1) cs.length) ∧
      socketIdx (connectLoop i fd err cs).trace
          = List.range' i (min (firstConnecting cs + 1) cs.length) := by
  induction cs with
  | nil => intro i fd err _; simp [connectLoop, connectArgs, connectIdx, socketIdx]
  | cons c rest ih =>
    intro i fd err h
    have hc := h c (List.mem_cons_self _ _)
    have hrest : ∀ d ∈ rest, 0 ≤ d.sock ∧ d.opt = 0 :=
      fun d hd => h d (List.mem_cons_of_mem _ hd)
    have hs : ¬ c.sock < 0 := not_lt.mpr hc.1
    by_cases hconn : c.conn = 0
    · simp [connectLoop, hs, hc.2, hconn, firstConnecting, connectArgs, connectIdx,
        socketIdx, Call.connectArg?, Call.connectIdx?, Call.socketIdx?]
    · obtain ⟨h1, h2, h3⟩ := ih (i + 1) (-1) c.conn hrest
      simp only [connectArgs, connectIdx, socketIdx] at h1 h2 h3
      simp [connectLoop, hs, hc.2, hconn, firstConnecting, connectArgs, connectIdx,
        socketIdx, Call.connectArg?, Call.connectIdx?, Call.socketIdx?, h1, h2, h3,
        Nat.succ_min_succ, List.range'_succ]

theorem connectLoop_handle (cs : List Candidate) :
    ∀ (i : Nat) (fd err : Int), (∀ c ∈ cs, 0 ≤ c.sock ∧ c.opt = 0) →
      ∀ c, cs[firstConnecting cs]? = some c →
        (connectLoop i fd err cs).err = 0 ∧ (connectLoop i fd err cs).supl_fd = c.sock := by
  induction cs with
  | nil => intro i fd err _ c hc; simp at hc
  | cons c0 rest ih =>
    intro i fd err h c hc
    have h0 := h c0 (List.mem_cons_self _ _)
    have hrest : ∀ d ∈ rest, 0 ≤ d.sock ∧ d.opt = 0 :=
      fun d hd => h d (List.mem_cons_of_mem _ hd)
    have hs : ¬ c0.sock < 0 := not_lt.mpr h0.1
    by_cases hconn : c0.conn = 0
    · simp [firstConnecting, hconn] at hc
      subst hc
      simp [connectLoop, hs, h0.2, hconn]
    · simp [firstConnecting, hconn] at hc
      simpa [connectLoop, hs, h0.2, hconn] using ih (i + 1) (-1) c0.conn hrest c hc

theorem connectLoop_all_fail (cs : List Candidate) :
    ∀ (i : Nat) (err : Int), err ≠ 0 →
      (∀ c ∈ cs, 0 ≤ c.sock ∧ c.opt = 0 ∧ c.conn ≠ 0) →
        (connectLoop i (-1) err cs).supl_fd = -1 ∧ (connectLoop i (-1) err cs).err ≠ 0 := by
  induction cs with
  | nil => intro i err herr _; simp [connectLoop, herr]
  | cons c0 rest ih =>
    intro i err herr h
    have h0 := h c0 (List.mem_cons_self _ _)
    have hrest : ∀ d ∈ rest, 0 ≤ d.sock ∧ d.opt = 0 ∧ d.conn ≠ 0 :=
      fun d hd => h d (List.mem_cons_of_mem _ hd)
    have hs : ¬ c0.sock < 0 := not_lt.mpr h0.1
    simpa [connectLoop, hs, h0.2.1, h0.2.2] using ih (i + 1) c0.conn h0.2.2 hrest

theorem connectLoop_abort (cs : List Candidate) :
    ∀ (i : Nat) (fd err : Int) (k : Nat) (c : Candidate), err ≠ 0 →
      cs[k]? = some c →
      (∀ j d, j < k → cs[j]? = some d → d.conn ≠ 0) →
      (c.sock < 0 ∨ c.opt ≠ 0) →
        (connectLoop i fd err cs).err ≠ 0 ∧
        (∀ e ∈ (connectLoop i fd err cs).trace, ∀ j, e.cand = some j → j ≤ i + k) ∧
        (∀ e ∈ (connectLoop i fd err cs).trace, e.connectIdx? ≠ some (i + k)) := by
  induction cs with
  | nil => intro i fd err k c _ hk; simp at hk
  | cons c0 rest ih =>
    intro i fd err k c herr hk hprev hfail
    by_cases hs : c0.sock < 0
    · simp [connectLoop, hs, herr, Call.cand, Call.connectIdx?]
    by_cases ho : c0.opt = 0
    swap
    · simp [connectLoop, hs, ho, Call.cand, Call.connectIdx?]
    cases k with
    | zero =>
      simp at hk
      subst hk
      rcases hfail with h | h
      · exact absurd h hs
      · exact absurd ho h
    | succ k =>
      have hconn : c0.conn ≠ 0 := hprev 0 c0 (Nat.succ_pos _) (by simp)
      have hk2 : rest[k]? = some c := by simpa using hk
      have hprev2 : ∀ j d, j < k → rest[j]? = some d → d.conn ≠ 0 := by
        intro j d hj hd
        exact hprev (j + 1) d (Nat.succ_lt_succ hj) (by simpa using hd)
      obtain ⟨h1, h2, h3⟩ := ih (i + 1) (-1) c0.conn k c hconn hk2 hprev2 hfail
      have e1 : i + 1 + k = i + (k + 1) := by omega
      rw [e1] at h2 h3
      refine ⟨?_, ?_, ?_⟩
      · simpa [connectLoop, hs, ho, hconn] using h1
      · intro e he j hj
        simp [connectLoop, hs, ho, hconn] at he
        rcases he with rfl | rfl | rfl | rfl | rfl | rfl | he
        all_goals first
          | exact h2 e he j hj
          | (simp [Call.cand] at hj; done)
          | (simp [Call.cand] at hj; omega)
      · intro e he
        simp [connectLoop, hs, ho, hconn] at he
        rcases he with rfl | rfl | rfl | rfl | rfl | rfl | he
        all_goals first
          | exact h3 e he
          | simp [Call.connectIdx?]

theorem connectLoop_connected (cs : List Candidate) :
    ∀ (i : Nat) (fd err : Int), err ≠ 0 →
      ((connectLoop i fd err cs).err = 0 ↔ connected (connectLoop i fd err cs).trace) := by
  induction cs with
  | nil => intro i fd err herr; simp [connectLoop, connected, herr]
  | cons c0 rest ih =>
    intro i fd err herr
    by_cases hs : c0.sock < 0
    · simp [connectLoop, hs, herr, connected]
    by_cases ho : c0.opt = 0
    swap
    · simp [connectLoop, hs, ho, connected]
    by_cases hconn : c0.conn = 0
    · simp only [connectLoop, hs, ho, hconn, connected]
      simp
    · have h := ih (i + 1) (-1) c0.conn hconn
      have hne : ¬ (0 : Int) = c0.conn := fun h0 => hconn h0.symm
      simp only [connected] at h
      simp [connectLoop, hs, ho, hconn, connected, hne]
      exact h

theorem connectLoop_bound (cs : List Candidate) :
    ∀ (i : Nat) (fd err : Int), err ≠ 0 → (connectLoop i fd err cs).err = 0 →
      ∃ k c pre post, cs[k]? = some c ∧ 0 ≤ c.sock ∧
        (connectLoop i fd err cs).supl_fd = c.sock ∧
        (connectLoop i fd err cs).trace = pre ++ Call.socket (i + k) c.sock :: post ∧
        Call.connect (i + k) c.sa c.sock 0 ∈ post ∧ closedFds post = [] := by
  induction cs with
  | nil => intro i fd err herr h; simp [connectLoop] at h; exact absurd h herr
  | cons c0 rest ih =>
    intro i fd err herr h
    by_cases hs : c0.sock < 0
    · simp [connectLoop, hs] at h; exact absurd h herr
    by_cases ho : c0.opt = 0
    swap
    · simp [connectLoop, hs, ho] at h
    by_cases hconn : c0.conn = 0
    · refine ⟨0, c0, [], [Call.setsockopt i c0.sock c0.opt,
        Call.shell_print Diag.connecting, Call.connect i c0.sa c0.sock c0.conn], ?_⟩
      simp [connectLoop, hs, ho, hconn, closedFds, Call.closedFd?, not_lt.mp hs]
    · have h2 : (connectLoop (i + 1) (-1) c0.conn rest).err = 0 := by
        simpa [connectLoop, hs, ho, hconn] using h
      obtain ⟨k, c, pre, post, hk, hc, hfd, htr, hmem, hcl⟩ :=
        ih (i + 1) (-1) c0.conn hconn h2
      have e1 : i + 1 + k = i + (k + 1) := by omega
      rw [e1] at htr hmem
      refine ⟨k + 1, c, [Call.socket i c0.sock, Call.setsockopt i c0.sock c0.opt,
         Call.shell_print Diag.connecting, Call.connect i c0.sa c0.sock c0.conn,
         Call.close c0.sock, Call.shell_error Diag.connectFailed] ++ pre, post, ?_⟩
      refine ⟨by simpa using hk, hc, ?_, ?_, hmem, hcl⟩
      · simpa [connectLoop, hs, ho, hconn] using hfd
      · simp [connectLoop, hs, ho, hconn, htr]

theorem connectLoop_handle_range (cs : List Candidate) :
    ∀ (i : Nat) (fd err : Int), -1 ≤ fd →
      (∀ c ∈ cs, c.sock < 0 → c.sock = -1) → -1 ≤ (connectLoop i fd err cs).supl_fd := by
  induction cs with
  | nil => intro i fd err hfd _; simpa [connectLoop] using hfd
  | cons c0 rest ih =>
    intro i fd err hfd h
    have hrest : ∀ d ∈ rest, d.sock < 0 → d.sock = -1 :=
      fun d hd => h d (List.mem_cons_of_mem _ hd)
    by_cases hs : c0.sock < 0
    · have := h c0 (List.mem_cons_self _ _) hs
      simp [connectLoop, hs, this]
    have hs2 : 0 ≤ c0.sock := not_lt.mp hs
    by_cases ho : c0.opt = 0
    swap
    · simp [connectLoop, hs, ho]; omega
    by_cases hconn : c0.conn = 0
    · simp [connectLoop, hs, ho, hconn]; omega
    · simpa [connectLoop, hs, ho, hconn] using ih (i + 1) (-1) c0.conn (le_refl _) hrest

/-! ## Lemmas on the descriptor ledger -/

theorem ledger_append (a : List Call) :
    ∀ (live : List Int) (b : List Call),
      ledger live (a ++ b) = (ledger live a).bind (fun l => ledger l b) := by
  induction a with
  | nil => intro live b; simp [ledger]
  | cons e t ih =>
    intro live b
    cases e <;> simp only [List.cons_append, ledger] <;> (try split) <;> simp [ih]

theorem connectLoop_ledger (cs : List Candidate) :
    ∀ (i : Nat) (err : Int),
      ledger [] (connectLoop i (-1) err cs).trace
        = some (if 0 ≤ (connectLoop i (-1) err cs).supl_fd
            then [(connectLoop i (-1) err cs).supl_fd] else []) ∧
      (∀ fd, Call.close fd ∈ (connectLoop i (-1) err cs).trace → 0 ≤ fd) := by
  induction cs with
  | nil => intro i err; simp [connectLoop, ledger]
  | cons c0 rest ih =>
    intro i err
    by_cases hs : c0.sock < 0
    · simp [connectLoop, hs, ledger, not_le.mpr hs]
    have hs2 : 0 ≤ c0.sock := not_lt.mp hs
    by_cases ho : c0.opt = 0
    swap
    · simp [connectLoop, hs, ho, ledger, hs2]
    by_cases hconn : c0.conn = 0
    · simp [connectLoop, hs, ho, hconn, ledger, hs2]
    · obtain ⟨h1, h2⟩ := ih (i + 1) c0.conn
      simp [connectLoop, hs, ho, hconn, ledger, hs2, h1]
      exact h2

theorem connectLoop_created (cs : List Candidate) :
    ∀ (i : Nat) (err : Int),
      closedFds (connectLoop i (-1) err cs).trace
          ++ (if 0 ≤ (connectLoop i (-1) err cs).supl_fd
              then [(connectLoop i (-1) err cs).supl_fd] else [])
        = createdFds (connectLoop i (-1) err cs).trace := by
  induction cs with
  | nil => intro i err; simp [connectLoop, closedFds, createdFds]
  | cons c0 rest ih =>
    intro i err
    by_cases hs : c0.sock < 0
    · simp [connectLoop, hs, closedFds, createdFds, Call.closedFd?, Call.createdFd?,
        not_le.mpr hs]
    have hs2 : 0 ≤ c0.sock := not_lt.mp hs
    by_cases ho : c0.opt = 0
    swap
    · simp [connectLoop, hs, ho, closedFds, createdFds, Call.closedFd?, Call.createdFd?, hs2]
    by_cases hconn : c0.conn = 0
    · simp [connectLoop, hs, ho, hconn, closedFds, createdFds, Call.closedFd?,
        Call.createdFd?, hs2]
    · have h := ih (i + 1) c0.conn
      simp only [closedFds, createdFds] at h
      simp [connectLoop, hs, ho, hconn, closedFds, createdFds, Call.closedFd?,
        Call.createdFd?, hs2, h]

/-! ## Lemmas on `open_supl_socket` -/

theorem open_trace_of_fail (o : Resolution) (fd0 : Int) (h : o.gai ≠ 0) :
    open_supl_socket o fd0
      = ⟨-1, fd0, [Call.getaddrinfo o.gai, Call.shell_error Diag.resolveFailed]⟩ := by
  simp [open_supl_socket, h]

theorem open_of_resolved (o : Resolution) (fd0 : Int) (h : o.gai = 0) :
    open_supl_socket o fd0 =
      if (connectLoop 0 fd0 (-1) o.info).err ≠ 0 then
        if (connectLoop 0 fd0 (-1) o.info).supl_fd > -1 then
          ⟨-1, -1, Call.getaddrinfo 0 :: ((connectLoop 0 fd0 (-1) o.info).trace ++
            [Call.freeaddrinfo, Call.shell_error Diag.couldNotConnect,
             Call.close (connectLoop 0 fd0 (-1) o.info).supl_fd])⟩
        else
          ⟨-1, (connectLoop 0 fd0 (-1) o.info).supl_fd,
            Call.getaddrinfo 0 :: ((connectLoop 0 fd0 (-1) o.info).trace ++
              [Call.freeaddrinfo, Call.shell_error Diag.couldNotConnect])⟩
      else
        ⟨0, (connectLoop 0 fd0 (-1) o.info).supl_fd,
          Call.getaddrinfo 0 :: ((connectLoop 0 fd0 (-1) o.info).trace ++
            [Call.freeaddrinfo])⟩ := by
  simp only [open_supl_socket, h]
  split_ifs <;> simp_all

theorem open_connect_mem (o : Resolution) (fd0 : Int) (i sa : Nat) (fd ret : Int) :
    Call.connect i sa fd ret ∈ (open_supl_socket o fd0).trace ↔
      o.gai = 0 ∧ Call.connect i sa fd ret ∈ (connectLoop 0 fd0 (-1) o.info).trace := by
  by_cases hgai : o.gai = 0
  · rw [open_of_resolved o fd0 hgai]
    split_ifs <;> simp [hgai]
  · simp [open_trace_of_fail o fd0 hgai, hgai]

theorem open_connected_iff (o : Resolution) (fd0 : Int) :
    connected (open_supl_socket o fd0).trace ↔
      o.gai = 0 ∧ connected (connectLoop 0 fd0 (-1) o.info).trace := by
  simp only [connected, open_connect_mem]
  constructor
  · rintro ⟨i, sa, fd, h1, h2⟩; exact ⟨h1, i, sa, fd, h2⟩
  · rintro ⟨h1, i, sa, fd, h2⟩; exact ⟨i, sa, fd, h1, h2⟩

theorem open_ret_zero_iff (o : Resolution) (fd0 : Int) :
    (open_supl_socket o fd0).ret = 0 ↔
      o.gai = 0 ∧ (connectLoop 0 fd0 (-1) o.info).err = 0 := by
  by_cases hgai : o.gai = 0
  · rw [open_of_resolved o fd0 hgai]
    split_ifs <;> simp_all
  · simp [open_trace_of_fail o fd0 hgai, hgai]

theorem open_ret_cases (o : Resolution) (fd0 : Int) :
    (open_supl_socket o fd0).ret = 0 ∨ (open_supl_socket o fd0).ret = -1 := by
  simp only [open_supl_socket]
  split_ifs <;> simp

theorem open_prim_mem (o : Resolution) (fd0 : Int) (e : Call) (j : Nat)
    (he : e ∈ (open_supl_socket o fd0).trace) (hj : e.cand = some j) :
    o.gai = 0 ∧ e ∈ (connectLoop 0 fd0 (-1) o.info).trace := by
  by_cases hgai : o.gai = 0
  · refine ⟨hgai, ?_⟩
    rw [open_of_resolved o fd0 hgai] at he
    split_ifs at he <;> simp at he <;> casesm* _ ∨ _ <;>
      first
        | assumption
        | (subst_vars; simp [Call.cand] at hj)
  · rw [open_trace_of_fail o fd0 hgai] at he
    simp at he
    rcases he with rfl | rfl <;> simp [Call.cand] at hj

theorem open_ret_zero_iff_connected (o : Resolution) (fd0 : Int) :
    (open_supl_socket o fd0).ret = 0 ↔ connected (open_supl_socket o fd0).trace := by
  rw [open_ret_zero_iff, open_connected_iff,
    connectLoop_connected o.info 0 fd0 (-1) (by decide)]

/-! ## Connection establishment -/

/-- C1: when resolution succeeds and every socket creation and every
`setsockopt` succeeds, the addresses handed to `connect`, and the positions for
which `socket` and `connect` are called, are exactly the candidates up to and
including the first one whose `connect` returns 0 (all of them when none does),
in resolution order; and when such a candidate exists the call returns 0 with
`supl_fd` equal to that candidate's socket. -/
theorem open_supl_socket_connect_order (o : Resolution) (fd0 : Int)
    (hgai : o.gai = 0) (hne : o.info ≠ [])
    (hok : ∀ c ∈ o.info, 0 ≤ c.sock ∧ c.opt = 0) :
    connectArgs (open_supl_socket o fd0).trace
        = (o.info.take (firstConnecting o.info + 1)).map Candidate.sa ∧
    connectIdx (open_supl_socket o fd0).trace
        = List.range (min (firstConnecting o.info + 1) o.info.length) ∧
    socketIdx (open_supl_socket o fd0).trace
        = List.range (min (firstConnecting o.info + 1) o.info.length) ∧
    (∀ c, o.info[firstConnecting o.info]? = some c →
        (open_supl_socket o fd0).ret = 0 ∧ (open_supl_socket o fd0).supl_fd = c.sock) := by
  have _ := hne
  obtain ⟨h1, h2, h3⟩ := connectLoop_ordered o.info 0 fd0 (-1) hok
  simp only [connectArgs, connectIdx, socketIdx] at h1 h2 h3
  refine ⟨?_, ?_, ?_, ?_⟩
  · rw [open_of_resolved o fd0 hgai]
    split_ifs <;> simp [connectArgs, Call.connectArg?, h1]
  · rw [open_of_resolved o fd0 hgai, List.range_eq_range']
    split_ifs <;> simp [connectIdx, Call.connectIdx?, h2]
  · rw [open_of_resolved o fd0 hgai, List.range_eq_range']
    split_ifs <;> simp [socketIdx, Call.socketIdx?, h3]
  · intro c hc
    obtain ⟨he, hf⟩ := connectLoop_handle o.info 0 fd0 (-1) hok c hc
    rw [open_of_resolved o fd0 hgai]
    simp [he, hf]

/-- Scenario for C1: candidates [A (connect fails), B (connect succeeds)] give
connect attempts A then B, and the handle ends on B's socket. -/
theorem open_supl_socket_connect_order_witness :
    connectArgs (open_supl_socket resAB (-1)).trace = [candA.sa, candB.sa] ∧
    connectIdx (open_supl_socket resAB (-1)).trace = [0, 1] ∧
    socketIdx (open_supl_socket resAB (-1)).trace = [0, 1] ∧
    (open_supl_socket resAB (-1)).ret = 0 ∧
    (open_supl_socket resAB (-1)).supl_fd = candB.sock := by
  have h := open_supl_socket_connect_order resAB (-1) rfl (by decide) (by decide)
  exact ⟨h.1, h.2.1, h.2.2.1, h.2.2.2 candB rfl⟩

/-- C2: the call returns 0 exactly when some `connect` call returned 0, and
otherwise returns -1; when it returns 0, `supl_fd` is the non-negative value
`socket()` returned for the candidate whose `connect` returned 0, and no
`close` call follows that `socket()` call. -/
theorem open_supl_socket_success_iff (o : Resolution) (fd0 : Int) :
    ((open_supl_socket o fd0).ret = 0 ↔ connected (open_supl_socket o fd0).trace) ∧
    ((open_supl_socket o fd0).ret = 0 ∨ (open_supl_socket o fd0).ret = -1) ∧
    ((open_supl_socket o fd0).ret = 0 →
      ∃ k c pre post, o.info[k]? = some c ∧ 0 ≤ c.sock ∧
        (open_supl_socket o fd0).supl_fd = c.sock ∧
        (open_supl_socket o fd0).trace = pre ++ Call.socket k c.sock :: post ∧
        Call.connect k c.sa c.sock 0 ∈ post ∧ closedFds post = []) := by
  refine ⟨?_, open_ret_cases o fd0, ?_⟩
  · exact open_ret_zero_iff_connected o fd0
  · intro h
    obtain ⟨hgai, herr⟩ := (open_ret_zero_iff o fd0).mp h
    obtain ⟨k, c, pre, post, hk, hc, hfd, htr, hmem, hcl⟩ :=
      connectLoop_bound o.info 0 fd0 (-1) (by decide) herr
    rw [Nat.zero_add] at htr hmem
    refine ⟨k, c, Call.getaddrinfo 0 :: pre, post ++ [Call.freeaddrinfo], hk, hc, ?_, ?_,
      List.mem_append_left _ hmem, ?_⟩
    · rw [open_of_resolved o fd0 hgai]; simp [herr, hfd]
    · rw [open_of_resolved o fd0 hgai]; simp [herr, htr]
    · simp only [closedFds] at hcl
      simp [closedFds, hcl, Call.closedFd?]

/-- C3: for a non-empty candidate list on which every `socket` and every
`setsockopt` succeeds and every `connect` fails, the call returns -1 and
`supl_fd` is -1 on return. -/
theorem open_supl_socket_all_connects_fail (o : Resolution) (fd0 : Int)
    (hgai : o.gai = 0) (hne : o.info ≠ [])
    (hall : ∀ c ∈ o.info, 0 ≤ c.sock ∧ c.opt = 0 ∧ c.conn ≠ 0) :
    (open_supl_socket o fd0).ret = -1 ∧ (open_supl_socket o fd0).supl_fd = -1 := by
  obtain ⟨gai, info⟩ := o
  cases info with
  | nil => exact absurd rfl hne
  | cons c0 rest =>
    have h0 := hall c0 (List.mem_cons_self _ _)
    have hrest : ∀ d ∈ rest, 0 ≤ d.sock ∧ d.opt = 0 ∧ d.conn ≠ 0 :=
      fun d hd => hall d (List.mem_cons_of_mem _ hd)
    obtain ⟨h1, h2⟩ := connectLoop_all_fail rest 1 c0.conn h0.2.2 hrest
    have hs : ¬ c0.sock < 0 := not_lt.mpr h0.1
    have e1 : (connectLoop 0 fd0 (-1) (c0 :: rest)).supl_fd = -1 := by
      simpa [connectLoop, hs, h0.2.1, h0.2.2] using h1
    have e2 : (connectLoop 0 fd0 (-1) (c0 :: rest)).err ≠ 0 := by
      simpa [connectLoop, hs, h0.2.1, h0.2.2] using h2
    rw [open_of_resolved _ fd0 hgai]
    rw [if_pos e2]
    split_ifs <;> simp [e1]

/-- Scenario for C3: the single candidate A (connect refused), entered with a
stale handle 7. -/
theorem open_supl_socket_all_connects_fail_witness :
    (open_supl_socket resA 7).ret = -1 ∧ (open_supl_socket resA 7).supl_fd = -1 :=
  open_supl_socket_all_connects_fail resA 7 rfl (by decide) (by decide)

/-- C4: when `getaddrinfo` reports an error, or reports success with an empty
list, the call returns -1 and no `socket`, `setsockopt` or `connect` call is
made. -/
theorem open_supl_socket_no_candidates (o : Resolution) (fd0 : Int)
    (h : o.gai ≠ 0 ∨ o.info = []) :
    (open_supl_socket o fd0).ret = -1 ∧
    (∀ e ∈ (open_supl_socket o fd0).trace, e.cand = none) := by
  have hloop : o.gai = 0 → (connectLoop 0 fd0 (-1) o.info) = ⟨fd0, -1, []⟩ := by
    intro hgai
    rcases h with h | h
    · exact absurd hgai h
    · rw [h]; rfl
  constructor
  · rcases open_ret_cases o fd0 with h0 | h1
    · obtain ⟨hgai, herr⟩ := (open_ret_zero_iff o fd0).mp h0
      rw [hloop hgai] at herr
      simp at herr
    · exact h1
  · intro e he
    cases hc : e.cand with
    | none => rfl
    | some j =>
      obtain ⟨hgai, hmem⟩ := open_prim_mem o fd0 e j he hc
      rw [hloop hgai] at hmem
      simp at hmem

/-- Scenarios for C4: a resolution error, and a successful resolution with an
empty list. -/
theorem open_supl_socket_no_candidates_witness :
    ((open_supl_socket ⟨-2, []⟩ (-1)).ret = -1 ∧
      ∀ e ∈ (open_supl_socket ⟨-2, []⟩ (-1)).trace, e.cand = none) ∧
    ((open_supl_socket ⟨0, []⟩ (-1)).ret = -1 ∧
      ∀ e ∈ (open_supl_socket ⟨0, []⟩ (-1)).trace, e.cand = none) :=
  ⟨open_supl_socket_no_candidates ⟨-2, []⟩ (-1) (Or.inl (by decide)),
   open_supl_socket_no_candidates ⟨0, []⟩ (-1) (Or.inr rfl)⟩

/-- C5: if every candidate before position `k` has a failing `connect`, and for
the candidate at `k` either `socket()` returns a negative value or
`setsockopt()` returns non-zero, then the call returns -1, no `connect` is
made for candidate `k`, and no `socket`, `setsockopt` or `connect` call is made
for any candidate after `k`. -/
theorem open_supl_socket_abort (o : Resolution) (fd0 : Int) (k : Nat) (c : Candidate)
    (hk : o.info[k]? = some c)
    (hprev : ∀ j d, j < k → o.info[j]? = some d → d.conn ≠ 0)
    (hfail : c.sock < 0 ∨ c.opt ≠ 0) :
    (open_supl_socket o fd0).ret = -1 ∧
    (∀ e ∈ (open_supl_socket o fd0).trace, e.connectIdx? ≠ some k) ∧
    (∀ e ∈ (open_supl_socket o fd0).trace, ∀ j, e.cand = some j → j ≤ k) := by
  obtain ⟨h1, h2, h3⟩ := connectLoop_abort o.info 0 fd0 (-1) k c (by decide) hk hprev hfail
  rw [Nat.zero_add] at h2 h3
  refine ⟨?_, ?_, ?_⟩
  · rcases open_ret_cases o fd0 with h0 | hm
    · exact absurd ((open_ret_zero_iff o fd0).mp h0).2 h1
    · exact hm
  · intro e he heq
    have hc : e.cand = some k := by
      cases e <;> simp [Call.connectIdx?] at heq
      simp [Call.cand, heq]
    exact h3 e (open_prim_mem o fd0 e k he hc).2 heq
  · intro e he j hj
    exact h2 e (open_prim_mem o fd0 e j he hj).2 j hj

/-- Scenarios for C5: [A, X] where X is at position 1 and cannot get a socket,
respectively cannot have its timeout set; candidate B after X is never
touched. -/
theorem open_supl_socket_abort_witness :
    ((open_supl_socket ⟨0, [candA, candNoSocket, candB]⟩ (-1)).ret = -1 ∧
      (∀ e ∈ (open_supl_socket ⟨0, [candA, candNoSocket, candB]⟩ (-1)).trace,
        e.connectIdx? ≠ some 1) ∧
      (∀ e ∈ (open_supl_socket ⟨0, [candA, candNoSocket, candB]⟩ (-1)).trace,
        ∀ j, e.cand = some j → j ≤ 1)) ∧
    ((open_supl_socket ⟨0, [candA, candNoTimeout, candB]⟩ (-1)).ret = -1 ∧
      (∀ e ∈ (open_supl_socket ⟨0, [candA, candNoTimeout, candB]⟩ (-1)).trace,
        e.connectIdx? ≠ some 1) ∧
      (∀ e ∈ (open_supl_socket ⟨0, [candA, candNoTimeout, candB]⟩ (-1)).trace,
        ∀ j, e.cand = some j → j ≤ 1)) := by
  have hprev : ∀ (l : List Candidate) (j : Nat) (d : Candidate), j < 1 →
      (candA :: l)[j]? = some d → d.conn ≠ 0 := by
    intro l j d hj hd
    have hj0 : j = 0 := by omega
    subst hj0
    simp at hd
    subst hd
    decide
  exact ⟨open_supl_socket_abort ⟨0, [candA, candNoSocket, candB]⟩ (-1) 1 candNoSocket rfl
      (hprev _) (Or.inl (by decide)),
    open_supl_socket_abort ⟨0, [candA, candNoTimeout, candB]⟩ (-1) 1 candNoTimeout rfl
      (hprev _) (Or.inr (by decide))⟩

/-- C6, as stated, fails: (1) with the handle holding 5 on entry and a
resolution error, the call returns -1 and the handle still holds 5; (2) with a
`socket()` that reports failure as -3, the handle holds -3 on return; (3) with
an empty list and the handle holding -7 on entry, it still holds -7. -/
theorem open_supl_socket_failure_handle_counterexample :
    ¬ failureLeavesHandleUnset ⟨-2, []⟩ 5 ∧
    ¬ failureLeavesHandleUnset ⟨0, [⟨12, -3, 0, 0⟩]⟩ (-1) ∧
    ¬ failureLeavesHandleUnset ⟨0, []⟩ (-7) := by
  refine ⟨?_, ?_, ?_⟩ <;>
  · intro h
    have h2 := h (by
      rw [open_connected_iff]
      rintro ⟨_, i, sa, fd, hm⟩
      revert hm
      simp [connectLoop])
    revert h2
    decide

/-- C6, amended: for every resolution outcome in which `socket()` reports
failure as -1, and every handle value on entry that is -1 or a descriptor, a
call in which no candidate connected returns -1; on return the handle is -1
when resolution succeeded, and keeps its entry value when resolution failed. -/
theorem open_supl_socket_failure_handle (o : Resolution) (fd0 : Int)
    (hprior : -1 ≤ fd0)
    (hsock : ∀ c ∈ o.info, c.sock < 0 → c.sock = -1)
    (hno : ¬ connected (open_supl_socket o fd0).trace) :
    (open_supl_socket o fd0).ret = -1 ∧
    (o.gai = 0 → (open_supl_socket o fd0).supl_fd = -1) ∧
    (o.gai ≠ 0 → (open_supl_socket o fd0).supl_fd = fd0) := by
  have hret : (open_supl_socket o fd0).ret ≠ 0 := fun h0 =>
    hno ((open_ret_zero_iff_connected o fd0).mp h0)
  refine ⟨?_, ?_, ?_⟩
  · rcases open_ret_cases o fd0 with h0 | hm
    · exact absurd h0 hret
    · exact hm
  · intro hgai
    have herr : (connectLoop 0 fd0 (-1) o.info).err ≠ 0 := fun he =>
      hret ((open_ret_zero_iff o fd0).mpr ⟨hgai, he⟩)
    have hrange := connectLoop_handle_range o.info 0 fd0 (-1) hprior hsock
    rw [open_of_resolved o fd0 hgai, if_pos herr]
    split_ifs with hgt
    · rfl
    · show (connectLoop 0 fd0 (-1) o.info).supl_fd = -1
      omega
  · intro hgai
    rw [open_trace_of_fail o fd0 hgai]

/-- Scenarios for the amended C6: a socket that cannot be configured after a
stale handle 7, and a resolution error with the handle unset on entry. -/
theorem open_supl_socket_failure_handle_witness :
    ((open_supl_socket ⟨0, [candA, candNoTimeout]⟩ 7).ret = -1 ∧
      (open_supl_socket ⟨0, [candA, candNoTimeout]⟩ 7).supl_fd = -1) ∧
    ((open_supl_socket ⟨-2, []⟩ (-1)).ret = -1 ∧
      (open_supl_socket ⟨-2, []⟩ (-1)).supl_fd = -1) := by
  have hA := open_supl_socket_failure_handle ⟨0, [candA, candNoTimeout]⟩ 7
    (by decide) (by decide)
    (by
      rw [open_connected_iff]
      rintro ⟨_, i, sa, fd, hm⟩
      revert hm
      simp [connectLoop, candA, candNoTimeout])
  have hB := open_supl_socket_failure_handle ⟨-2, []⟩ (-1)
    (by decide) (by decide)
    (by
      rw [open_connected_iff]
      rintro ⟨h0, _⟩
      revert h0
      decide)
  exact ⟨⟨hA.1, hA.2.1 rfl⟩, ⟨hB.1, hB.2.2 (by decide)⟩⟩

/-! ## Read adapter -/

/-- C7: `supl_read` makes exactly one `recv` call, on `supl_fd`; it returns 0
when `recv` returned a negative value and `errno` is `ETIMEDOUT`, and the value
of `recv` unchanged otherwise: a negative value with another `errno` is
returned as it is, and so is a non-negative value whatever `errno` holds. -/
theorem supl_read_spec (ETIMEDOUT supl_fd rc errno : Int) :
    (supl_read ETIMEDOUT supl_fd rc errno).trace = [Call.recv supl_fd] ∧
    (rc < 0 → errno = ETIMEDOUT → (supl_read ETIMEDOUT supl_fd rc errno).ret = 0) ∧
    (¬ (rc < 0 ∧ errno = ETIMEDOUT) → (supl_read ETIMEDOUT supl_fd rc errno).ret = rc) ∧
    (rc < 0 → errno ≠ ETIMEDOUT → (supl_read ETIMEDOUT supl_fd rc errno).ret = rc) ∧
    (0 ≤ rc → (supl_read ETIMEDOUT supl_fd rc errno).ret = rc) := by
  unfold supl_read
  refine ⟨?_, ?_, ?_, ?_, ?_⟩
  · split_ifs <;> rfl
  · intro h1 h2; simp [h1, h2]
  · intro h; simp [h]
  · intro _ h2; simp [h2]
  · intro h; simp [not_lt.mpr h]

/-- Scenarios for C7 with `ETIMEDOUT = 116`: a timeout gives 0; a failure with
another `errno` is passed on; 12 bytes read with a stale `ETIMEDOUT` give 12. -/
theorem supl_read_spec_witness :
    (supl_read 116 4 (-1) 116).ret = 0 ∧
    (supl_read 116 4 (-1) 104).ret = -1 ∧
    (supl_read 116 4 12 116).ret = 12 ∧
    (supl_read 116 4 12 116).trace = [Call.recv 4] :=
  ⟨(supl_read_spec 116 4 (-1) 116).2.1 (by decide) rfl,
   (supl_read_spec 116 4 (-1) 104).2.2.2.1 (by decide) (by decide),
   (supl_read_spec 116 4 12 116).2.2.2.2 (by decide),
   (supl_read_spec 116 4 12 116).1⟩

/-! ## Log adapter -/

/-- C8: `supl_logger` returns the formatter's result unchanged.  A negative
result gives only the encoding-error diagnostic.  A result of 256 or more gives
the truncation diagnostic followed by the buffer, which holds the first 255
characters of the text, and the untruncated length is returned.  A result from
0 to 255 gives the buffer alone, which is the whole text, and its length is
returned. -/
theorem supl_logger_spec (ret : Int) (buffer s written : List Char) (n : Nat) :
    (supl_logger ret buffer).1 = ret ∧
    (ret < 0 → (supl_logger ret buffer).2 = [Call.shell_error Diag.encodingError]) ∧
    (256 ≤ ret → (supl_logger ret buffer).2
        = [Call.shell_error Diag.tooLong, Call.shell_print (Diag.message buffer)]) ∧
    (0 ≤ ret → ret ≤ 255 → (supl_logger ret buffer).2
        = [Call.shell_print (Diag.message buffer)]) ∧
    supl_logger_fmt (Formatted.encodingError n written)
        = (Int.negSucc n, [Call.shell_error Diag.encodingError]) ∧
    (256 ≤ s.length →
      supl_logger_fmt (Formatted.text s)
        = ((s.length : Int), [Call.shell_error Diag.tooLong,
            Call.shell_print (Diag.message (s.take 255))]) ∧
      (s.take 255).length = 255) ∧
    (s.length ≤ 255 →
      supl_logger_fmt (Formatted.text s)
        = ((s.length : Int), [Call.shell_print (Diag.message s)])) := by
  refine ⟨?_, ?_, ?_, ?_, ?_, ?_, ?_⟩
  · unfold supl_logger; split_ifs <;> rfl
  · intro h; simp [supl_logger, h]
  · intro h
    have h1 : ¬ ret < 0 := by omega
    have h2 : ret.toNat ≥ bufferSize := by simp only [bufferSize]; omega
    simp [supl_logger, h1, h2]
  · intro h0 h255
    have h1 : ¬ ret < 0 := by omega
    have h2 : ¬ ret.toNat ≥ bufferSize := by simp only [bufferSize]; omega
    simp [supl_logger, h1, h2]
  · simp [supl_logger_fmt, vsnprintk, supl_logger, Int.negSucc_lt_zero]
  · intro h
    have h1 : ¬ ((s.length : Int) < 0) := by omega
    have h2 : ((s.length : Int)).toNat ≥ bufferSize := by simp only [bufferSize]; omega
    refine ⟨?_, ?_⟩
    · simp only [supl_logger_fmt, vsnprintk, supl_logger, if_neg h1, if_pos h2]
      rfl
    · rw [List.length_take]; omega
  · intro h
    have h1 : ¬ ((s.length : Int) < 0) := by omega
    have h2 : ¬ ((s.length : Int)).toNat ≥ bufferSize := by simp only [bufferSize]; omega
    have h3 : s.take (bufferSize - 1) = s := List.take_of_length_le (by simp only [bufferSize]; omega)
    simp only [supl_logger_fmt, vsnprintk, supl_logger, if_neg h1, if_neg h2, h3]

/-- Scenarios for C8: the five characters of "hello" are printed and 5 is
returned; a text of 300 characters is cut to 255, announced as cut, and 300 is
returned. -/
theorem supl_logger_spec_witness :
    supl_logger_fmt (Formatted.text ['h', 'e', 'l', 'l', 'o'])
      = (5, [Call.shell_print (Diag.message ['h', 'e', 'l', 'l', 'o'])]) ∧
    supl_logger_fmt (Formatted.text (List.replicate 300 'x'))
      = (300, [Call.shell_error Diag.tooLong,
          Call.shell_print (Diag.message (List.replicate 255 'x'))]) := by
  constructor
  · exact (supl_logger_spec 0 [] ['h', 'e', 'l', 'l', 'o'] [] 0).2.2.2.2.2.2 (by decide)
  · have h := ((supl_logger_spec 0 [] (List.replicate 300 'x') [] 0).2.2.2.2.2.1
      (by rw [List.length_replicate]; decide)).1
    rw [List.length_replicate, List.take_replicate] at h
    exact h

/-! ## Handle lifecycle -/

theorem close_supl_socket_keeps_handle (supl_fd rc : Int) :
    (close_supl_socket supl_fd rc).supl_fd = supl_fd := by
  unfold close_supl_socket
  split_ifs <;> rfl

/-- C9 fails on the code: `close_supl_socket` entered with `supl_fd = 3` and a
successful `close` leaves `supl_fd = 3`, and a following `supl_read`,
`supl_write` or `close_supl_socket` acts on descriptor 3 again. -/
theorem close_supl_socket_handle_stale :
    ¬ closeResetsHandle 3 0 ∧
    (close_supl_socket 3 0).supl_fd = 3 ∧
    (close_supl_socket 3 0).trace = [Call.close 3] ∧
    (supl_read 116 (close_supl_socket 3 0).supl_fd (-1) 9).trace = [Call.recv 3] ∧
    (supl_write (close_supl_socket 3 0).supl_fd (-1)).trace = [Call.send 3] ∧
    (close_supl_socket (close_supl_socket 3 0).supl_fd (-1)).trace
      = [Call.close 3, Call.shell_error Diag.closeFailed] := by
  unfold closeResetsHandle
  decide

/-! ## Descriptor accounting -/

/-- C10: entered with `supl_fd = -1`, every descriptor created by `socket()`
during the call is closed exactly once, after its creation, except the one of
the connected candidate, which stays live and is the value of `supl_fd`; no
`close` is made on a value that is not a live descriptor (so none twice, and
none on a negative value).  In call order, the descriptors closed, followed by
the connected one on success, are the descriptors created. -/
theorem open_supl_socket_descriptors (o : Resolution) :
    ledger [] (open_supl_socket o (-1)).trace
      = some (if (open_supl_socket o (-1)).ret = 0
          then [(open_supl_socket o (-1)).supl_fd] else []) ∧
    closedFds (open_supl_socket o (-1)).trace
        ++ (if (open_supl_socket o (-1)).ret = 0
            then [(open_supl_socket o (-1)).supl_fd] else [])
      = createdFds (open_supl_socket o (-1)).trace ∧
    (∀ fd, Call.close fd ∈ (open_supl_socket o (-1)).trace → 0 ≤ fd) ∧
    ((open_supl_socket o (-1)).ret = 0 → 0 ≤ (open_supl_socket o (-1)).supl_fd) := by
  by_cases hgai : o.gai = 0
  swap
  · rw [open_trace_of_fail o (-1) hgai]
    simp [ledger, closedFds, createdFds, Call.closedFd?, Call.createdFd?]
  obtain ⟨hl, hc⟩ := connectLoop_ledger o.info 0 (-1)
  have hcr := connectLoop_created o.info 0 (-1)
  simp only [closedFds, createdFds] at hcr
  have hpos : (connectLoop 0 (-1) (-1) o.info).err = 0 →
      0 ≤ (connectLoop 0 (-1) (-1) o.info).supl_fd := by
    intro herr
    obtain ⟨k, c, pre, post, _, hc0, hfd, _⟩ :=
      connectLoop_bound o.info 0 (-1) (-1) (by decide) herr
    rw [hfd]; exact hc0
  rw [open_of_resolved o (-1) hgai]
  by_cases herr : (connectLoop 0 (-1) (-1) o.info).err = 0
  · have h0 := hpos herr
    rw [if_pos h0] at hcr
    simp only [herr, ne_eq, not_true_eq_false, if_false, if_true]
    refine ⟨?_, ?_, ?_, fun _ => h0⟩
    · simp only [ledger, ledger_append, hl, if_pos h0, Option.some_bind, Option.bind]
    · simp [closedFds, createdFds, Call.closedFd?, Call.createdFd?, ← hcr]
    · intro fd hmem
      simp at hmem
      exact hc fd hmem
  · rw [if_pos herr]
    by_cases hgt : (connectLoop 0 (-1) (-1) o.info).supl_fd > -1
    · have h0 : 0 ≤ (connectLoop 0 (-1) (-1) o.info).supl_fd := by omega
      rw [if_pos h0] at hcr
      rw [if_pos hgt]
      refine ⟨?_, ?_, ?_, ?_⟩
      · simp [ledger, ledger_append, hl, h0]
      · simp [closedFds, createdFds, Call.closedFd?, Call.createdFd?, ← hcr]
      · intro fd hmem
        simp at hmem
        rcases hmem with hmem | rfl
        · exact hc fd hmem
        · exact h0
      · intro h; simp at h
    · have h0 : ¬ 0 ≤ (connectLoop 0 (-1) (-1) o.info).supl_fd := by omega
      rw [if_neg h0] at hcr
      rw [if_neg hgt]
      refine ⟨?_, ?_, ?_, ?_⟩
      · simp [ledger, ledger_append, hl, h0]
      · simp at hcr
        simp [closedFds, createdFds, Call.closedFd?, Call.createdFd?, ← hcr]
      · intro fd hmem
        simp at hmem
        exact hc fd hmem
      · intro h; simp at h

/-- Scenario for C10: A's socket 3 is closed once after its refused connect,
B's socket 4 stays live. -/
theorem open_supl_socket_descriptors_witness :
    ledger [] (open_supl_socket resAB (-1)).trace = some [4] ∧
    closedFds (open_supl_socket resAB (-1)).trace = [3] ∧
    createdFds (open_supl_socket resAB (-1)).trace = [3, 4] := by
  refine ⟨?_, by decide, by decide⟩
  have h := (open_supl_socket_descriptors resAB).1
  simpa using h

end GnssSupl
